import Mathlib

/-!
Verification of the data-transformation core of the Automated-Cost-Modelling
repository, against its natural-language specification.

The Python sources are shallowly embedded:

- src/backend/data_filter.py      : stockpile smoothing walk and depletion
- src/backend/data_processor.py   : rate-consistency validation, period labels
- src/backend/unit_converter.py   : rate parsing and monthly-SI normalization
- src/backend/column_generation.py: derived-column generation
- src/config.py                   : RATE_EPSILON

Floating-point arithmetic of the source is modelled over the rationals.
Calendar months are modelled as absolute month indices (year * 12 + month),
so that one calendar month after month m is m + 1, exactly the behaviour of
relativedelta(months=1) on month-truncated dates.
-/

set_option maxRecDepth 100000
set_option maxHeartbeats 1000000

/-! # Stockpile smoothing (src/backend/data_filter.py) -/

/-- One record of the long-format series built inside
apply_stockpile_smoothing: a month, the reported quantity taken from the
wide table, and the actual (smoothed) quantity. -/
structure SmoothEntry where
  month : Nat
  reported_quantity : ℚ
  actual_quantity : ℚ
deriving DecidableEq

/-- Insertion step of the chronological sort performed by
sort("date") inside apply_stockpile_smoothing. -/
def insertByMonth (p : Nat × ℚ) : List (Nat × ℚ) → List (Nat × ℚ)
  | [] => [p]
  | q :: qs => if p.1 ≤ q.1 then p :: q :: qs else q :: insertByMonth p qs

/-- Chronological (stable) sort of the series by month, modelling
source_df.sort("date") in apply_stockpile_smoothing. -/
def sortByMonth : List (Nat × ℚ) → List (Nat × ℚ)
  | [] => []
  | p :: ps => insertByMonth p (sortByMonth ps)

/-- The per-period stockpile walk of _apply_stockpile_smoothing
(data_filter.py lines 144-169): threading the stockpile through the sorted
series.  If reported is at least the threshold, actual is the threshold and
the excess is stockpiled; otherwise the shortfall is drawn from the
stockpile.  Returns the output records and the final stockpile. -/
def walk (threshold : ℚ) : ℚ → List (Nat × ℚ) → List SmoothEntry × ℚ
  | stockpile, [] => ([], stockpile)
  | stockpile, (m, reported) :: rest =>
    if reported ≥ threshold then
      let next := walk threshold (stockpile + (reported - threshold)) rest
      (⟨m, reported, threshold⟩ :: next.1, next.2)
    else
      let draw := min (threshold - reported) stockpile
      let next := walk threshold (stockpile - draw) rest
      (⟨m, reported, reported + draw⟩ :: next.1, next.2)

/-- The depletion loop of _apply_stockpile_smoothing (data_filter.py lines
172-196): after the observed series, synthesize successive months drawing
min(stockpile, threshold) each, while the stockpile is positive and fewer
than 120 periods (the fuel) have been synthesized. -/
def deplete (threshold : ℚ) : Nat → Nat → ℚ → List SmoothEntry
  | _, 0, _ => []
  | lastMonth, fuel + 1, stockpile =>
    if stockpile > 0 then
      ⟨lastMonth + 1, 0, min stockpile threshold⟩ ::
        deplete threshold (lastMonth + 1) fuel (stockpile - min stockpile threshold)
    else []

/-- source_df["date"].max(): the last observed month of the series. -/
def maxMonth (data : List (Nat × ℚ)) : Nat := data.foldl (fun a p => max a p.1) 0

/-- _apply_stockpile_smoothing (data_filter.py lines 118-198): sort the
series chronologically, run the stockpile walk over it, then deplete any
remaining stockpile over at most 120 synthesized future months. -/
def apply_stockpile_smoothing (data : List (Nat × ℚ)) (threshold : ℚ) : List SmoothEntry :=
  match data with
  | [] => []
  | _ :: _ =>
    let sorted := sortByMonth data
    let res := walk threshold 0 sorted
    res.1 ++ deplete threshold (maxMonth data) 120 res.2

/-- Sum of reported_quantity over an input series. -/
def sumReported (data : List (Nat × ℚ)) : ℚ := (data.map Prod.snd).sum

/-- Sum of actual_quantity over an output series. -/
def sumActual (es : List SmoothEntry) : ℚ := (es.map SmoothEntry.actual_quantity).sum

lemma sumActual_nil : sumActual [] = 0 := rfl

lemma sumActual_cons (e : SmoothEntry) (es : List SmoothEntry) :
    sumActual (e :: es) = e.actual_quantity + sumActual es := by
  simp [sumActual]

lemma sumActual_append (a b : List SmoothEntry) :
    sumActual (a ++ b) = sumActual a + sumActual b := by
  simp [sumActual]

lemma sumReported_nil : sumReported [] = 0 := rfl

lemma sumReported_cons (p : Nat × ℚ) (ps : List (Nat × ℚ)) :
    sumReported (p :: ps) = p.2 + sumReported ps := by
  simp [sumReported]

lemma sumReported_insertByMonth (p : Nat × ℚ) (l : List (Nat × ℚ)) :
    sumReported (insertByMonth p l) = p.2 + sumReported l := by
  induction l with
  | nil => simp [insertByMonth, sumReported_cons, sumReported_nil]
  | cons q qs ih =>
    by_cases h : p.1 ≤ q.1
    · simp [insertByMonth, h, sumReported_cons]
    · simp only [insertByMonth, if_neg h, sumReported_cons, ih]
      ring

lemma sumReported_sortByMonth (data : List (Nat × ℚ)) :
    sumReported (sortByMonth data) = sumReported data := by
  induction data with
  | nil => rfl
  | cons p ps ih => simp [sortByMonth, sumReported_insertByMonth, ih, sumReported_cons]

lemma length_insertByMonth (p : Nat × ℚ) (l : List (Nat × ℚ)) :
    (insertByMonth p l).length = l.length + 1 := by
  induction l with
  | nil => simp [insertByMonth]
  | cons q qs ih =>
    by_cases h : p.1 ≤ q.1
    · simp [insertByMonth, h]
    · simp [insertByMonth, h, ih]

lemma length_sortByMonth (data : List (Nat × ℚ)) :
    (sortByMonth data).length = data.length := by
  induction data with
  | nil => rfl
  | cons p ps ih => simp [sortByMonth, length_insertByMonth, ih]

/-- Invariant of the walk: actual mass plus final stockpile equals starting
stockpile plus reported mass. -/
lemma walk_sum (t : ℚ) (data : List (Nat × ℚ)) (s : ℚ) :
    sumActual (walk t s data).1 + (walk t s data).2 = s + sumReported data := by
  induction data generalizing s with
  | nil => simp [walk, sumReported_nil, sumActual_nil]
  | cons p rest ih =>
    obtain ⟨m, r⟩ := p
    by_cases h : r ≥ t
    · simp only [walk, if_pos h, sumActual_cons, sumReported_cons]
      have := ih (s + (r - t))
      linarith
    · simp only [walk, if_neg h, sumActual_cons, sumReported_cons]
      have := ih (s - min (t - r) s)
      linarith

/-- The running stockpile never becomes negative. -/
lemma walk_nonneg (t : ℚ) (data : List (Nat × ℚ)) (s : ℚ) (hs : 0 ≤ s) :
    0 ≤ (walk t s data).2 := by
  induction data generalizing s with
  | nil => simpa [walk]
  | cons p rest ih =>
    obtain ⟨m, r⟩ := p
    by_cases h : r ≥ t
    · simp only [walk, if_pos h]
      exact ih _ (by linarith)
    · simp only [walk, if_neg h]
      refine ih _ ?_
      have : min (t - r) s ≤ s := min_le_right _ _
      linarith

lemma walk_length (t : ℚ) (data : List (Nat × ℚ)) (s : ℚ) :
    (walk t s data).1.length = data.length := by
  induction data generalizing s with
  | nil => simp [walk]
  | cons p rest ih =>
    obtain ⟨m, r⟩ := p
    by_cases h : r ≥ t <;> simp [walk, h, ih]

/-- Every actual quantity produced by the walk is at most the threshold. -/
lemma walk_actual_le (t : ℚ) (data : List (Nat × ℚ)) (s : ℚ) :
    ∀ e ∈ (walk t s data).1, e.actual_quantity ≤ t := by
  induction data generalizing s with
  | nil => simp [walk]
  | cons p rest ih =>
    obtain ⟨m, r⟩ := p
    by_cases h : r ≥ t
    · simp only [walk, if_pos h, List.mem_cons]
      rintro e (rfl | he)
      · exact le_refl t
      · exact ih _ e he
    · simp only [walk, if_neg h, List.mem_cons]
      rintro e (rfl | he)
      · have : min (t - r) s ≤ t - r := min_le_left _ _
        simp only
        linarith
      · exact ih _ e he

/-- Every actual quantity produced by depletion is at most the threshold. -/
lemma deplete_actual_le (t : ℚ) (m fuel : Nat) (s : ℚ) :
    ∀ e ∈ deplete t m fuel s, e.actual_quantity ≤ t := by
  induction fuel generalizing m s with
  | zero => simp [deplete]
  | succ fuel ih =>
    by_cases h : s > 0
    · simp only [deplete, if_pos h, List.mem_cons]
      rintro e (rfl | he)
      · exact min_le_right _ _
      · exact ih _ _ e he
    · simp [deplete, if_neg h]

lemma deplete_length (t : ℚ) (m fuel : Nat) (s : ℚ) :
    (deplete t m fuel s).length ≤ fuel := by
  induction fuel generalizing m s with
  | zero => simp [deplete]
  | succ fuel ih =>
    by_cases h : s > 0
    · simp only [deplete, if_pos h, List.length_cons]
      exact Nat.succ_le_succ (ih _ _)
    · simp [deplete, if_neg h]

/-- If the starting stockpile is non-negative and fits in fuel * threshold,
the depletion loop releases exactly the whole stockpile. -/
lemma deplete_sum (t : ℚ) (fuel : Nat) (m : Nat) (s : ℚ)
    (h0 : 0 ≤ s) (hb : s ≤ (fuel : ℚ) * t) :
    sumActual (deplete t m fuel s) = s := by
  induction fuel generalizing m s with
  | zero =>
    simp only [Nat.cast_zero, zero_mul] at hb
    have : s = 0 := le_antisymm hb h0
    simp [deplete, this, sumActual_nil]
  | succ fuel ih =>
    by_cases hpos : s > 0
    · have ht : 0 < t := by
        by_contra hle
        push_neg at hle
        have hfz : ((fuel : ℚ) + 1) * t ≤ 0 :=
          mul_nonpos_of_nonneg_of_nonpos (by positivity) hle
        push_cast at hb
        linarith
      simp only [deplete, if_pos hpos, sumActual_cons]
      rcases le_total s t with hst | hts
      · have hmin : min s t = s := min_eq_left hst
        have hnn : (0:ℚ) ≤ (fuel : ℚ) * t := mul_nonneg (by positivity) ht.le
        rw [hmin, ih _ (s - s) (by linarith) (by linarith)]
        ring
      · have hmin : min s t = t := min_eq_right hts
        push_cast at hb
        rw [hmin, ih _ (s - t) (by linarith) (by push_cast; linarith)]
        ring
    · have : s = 0 := le_antisymm (not_lt.mp hpos) h0
      simp [deplete, hpos, sumActual_nil, this]

/-- C1 (amended).  Conservation of mass for the stockpile smoothing walk:
for a non-negative reported series with at least one positive value and a
positive capacity, the sum of reported_quantity over the original series
equals the sum of actual_quantity over the full output series (synthesized
depletion periods included), PROVIDED the stockpile left over after the
observed series fits within the depletion ceiling of 120 periods, that is,
leftover stockpile at most 120 * capacity.  (Without that proviso the claim
is false: the ceiling abandons the residual stockpile, see the
counterexample.) -/
theorem c1_conservation_of_mass_bounded (data : List (Nat × ℚ)) (threshold : ℚ)
    (hpos : 0 < threshold) (hnn : ∀ p ∈ data, 0 ≤ p.2) (hany : ∃ p ∈ data, 0 < p.2)
    (hceil : (walk threshold 0 (sortByMonth data)).2 ≤ 120 * threshold) :
    sumActual (apply_stockpile_smoothing data threshold) = sumReported data := by
  obtain ⟨p, hp, hppos⟩ := hany
  match data, hp with
  | q :: rest, _ =>
    simp only [apply_stockpile_smoothing, sumActual_append]
    have hws := walk_sum threshold (sortByMonth (q :: rest)) 0
    have hnonneg := walk_nonneg threshold (sortByMonth (q :: rest)) 0 (le_refl 0)
    have hds := deplete_sum threshold 120 (maxMonth (q :: rest))
      (walk threshold 0 (sortByMonth (q :: rest))).2 hnonneg (by push_cast; linarith)
    rw [hds]
    rw [sumReported_sortByMonth] at hws
    linarith

/-- Witness for c1_conservation_of_mass_bounded at a concrete input. -/
theorem c1_conservation_witness :
    ((0:ℚ) < 2 ∧ (∀ p ∈ [((0:Nat), (122:ℚ))], 0 ≤ p.2) ∧
      (∃ p ∈ [((0:Nat), (122:ℚ))], 0 < p.2) ∧
      (walk 2 0 (sortByMonth [((0:Nat), (122:ℚ))])).2 ≤ 120 * 2) ∧
    sumActual (apply_stockpile_smoothing [((0:Nat), (122:ℚ))] 2) =
      sumReported [((0:Nat), (122:ℚ))] :=
  ⟨⟨by norm_num, by norm_num, ⟨(0, 122), by simp, by norm_num⟩,
      by norm_num [walk, sortByMonth, insertByMonth]⟩,
    c1_conservation_of_mass_bounded _ _ (by norm_num) (by norm_num)
      ⟨(0, 122), by simp, by norm_num⟩
      (by norm_num [walk, sortByMonth, insertByMonth])⟩

/-- Counterexample to C1 as stated: the series [122] (non-negative, one
positive value) with capacity 1 leaves a stockpile of 121 after the observed
series; the depletion ceiling of 120 synthesized periods abandons 1 unit, so
total actual is 121 while total reported is 122. -/
theorem c1_conservation_counterexample :
    ((0:ℚ) < 1 ∧ (∀ p ∈ [((0:Nat), (122:ℚ))], 0 ≤ p.2) ∧
      (∃ p ∈ [((0:Nat), (122:ℚ))], 0 < p.2)) ∧
    sumActual (apply_stockpile_smoothing [((0:Nat), (122:ℚ))] 1) ≠
      sumReported [((0:Nat), (122:ℚ))] := by
  refine ⟨⟨by norm_num, by norm_num, ⟨(0, 122), by simp, by norm_num⟩⟩, ?_⟩
  norm_num [apply_stockpile_smoothing, sortByMonth, insertByMonth, walk, maxMonth,
    deplete, sumActual, sumReported]

/-- C2.  Capacity bound: no actual_quantity produced by the stockpile
smoothing walk (synthesized depletion periods included) exceeds the
capacity, for every input series and every positive capacity. -/
theorem c2_capacity_bound (data : List (Nat × ℚ)) (threshold : ℚ)
    (hpos : 0 < threshold) :
    ∀ e ∈ apply_stockpile_smoothing data threshold, e.actual_quantity ≤ threshold := by
  match data with
  | [] => simp [apply_stockpile_smoothing]
  | q :: rest =>
    intro e he
    simp only [apply_stockpile_smoothing, List.mem_append] at he
    rcases he with h | h
    · exact walk_actual_le _ _ _ e h
    · exact deplete_actual_le _ _ _ _ e h

/-- Witness for c2_capacity_bound at a concrete input. -/
theorem c2_capacity_bound_witness :
    (0:ℚ) < 50 ∧
    ∀ e ∈ apply_stockpile_smoothing [((0:Nat), (60:ℚ)), (1, 0)] 50,
      e.actual_quantity ≤ 50 :=
  ⟨by norm_num, c2_capacity_bound _ _ (by norm_num)⟩

/-- C3.  Termination and resource bound: the walk plus depletion is a total
function whose output has at most 120 periods beyond the observed series,
regardless of the leftover stockpile or the capacity. -/
theorem c3_termination_bound (data : List (Nat × ℚ)) (threshold : ℚ) :
    (apply_stockpile_smoothing data threshold).length ≤ data.length + 120 := by
  match data with
  | [] => simp [apply_stockpile_smoothing]
  | q :: rest =>
    simp only [apply_stockpile_smoothing, List.length_append]
    have h1 := walk_length threshold (sortByMonth (q :: rest)) 0
    have h2 := length_sortByMonth (q :: rest)
    have h3 := deplete_length threshold (maxMonth (q :: rest)) 120
      (walk threshold 0 (sortByMonth (q :: rest))).2
    omega

/-- C4.  The reference trace: reported [0, 50, 40, 60, 90, 75, 0] over seven
consecutive months with capacity 50 smooths to [0, 50, 40, 50, 50, 50, 50]
plus exactly one synthesized eighth month with actual 25, and the stockpile
is fully depleted (total actual equals total reported). -/
theorem c4_concrete_scenario :
    apply_stockpile_smoothing
        [(0, 0), (1, 50), (2, 40), (3, 60), (4, 90), (5, 75), (6, 0)] 50 =
      [⟨0, 0, 0⟩, ⟨1, 50, 50⟩, ⟨2, 40, 40⟩, ⟨3, 60, 50⟩, ⟨4, 90, 50⟩,
        ⟨5, 75, 50⟩, ⟨6, 0, 50⟩, ⟨7, 0, 25⟩] ∧
    sumActual (apply_stockpile_smoothing
        [(0, 0), (1, 50), (2, 40), (3, 60), (4, 90), (5, 75), (6, 0)] 50) =
      sumReported [(0, 0), (1, 50), (2, 40), (3, 60), (4, 90), (5, 75), (6, 0)] := by
  have h1 : apply_stockpile_smoothing
      [(0, 0), (1, 50), (2, 40), (3, 60), (4, 90), (5, 75), (6, 0)] 50 =
      [⟨0, 0, 0⟩, ⟨1, 50, 50⟩, ⟨2, 40, 40⟩, ⟨3, 60, 50⟩, ⟨4, 90, 50⟩,
        ⟨5, 75, 50⟩, ⟨6, 0, 50⟩, ⟨7, 0, 25⟩] := by
    norm_num [apply_stockpile_smoothing, sortByMonth, insertByMonth, walk, maxMonth,
      deplete]
  refine ⟨h1, ?_⟩
  rw [h1]
  norm_num [sumActual, sumReported]

/-! # Rate-consistency validation (src/backend/data_processor.py) -/

/-- Numeric value of a list of decimal digit characters. -/
def digitsVal (l : List Char) : Nat := l.foldl (fun a c => 10 * a + (c.toNat - 48)) 0

/-- Helper for parseNumericRate: the unsigned part of the leading-number
pattern, digits+ dot? digits*. -/
def parseUnsignedRate (cs : List Char) : Option ℚ :=
  let ds1 := cs.takeWhile Char.isDigit
  if ds1.isEmpty then none
  else
    let rest := cs.dropWhile Char.isDigit
    let ds2 := match rest with
      | '.' :: r => r.takeWhile Char.isDigit
      | _ => []
    some ((digitsVal ds1 : ℚ) + (digitsVal ds2 : ℚ) / (10 : ℚ) ^ ds2.length)

/-- Models the numeric-rate extraction of _validate_rate_consistency
(data_processor.py lines 229-234): regex extract of a leading
minus? digits+ dot? digits* pattern followed by a float cast.  Returns none
exactly when the pattern does not match at the start of the string. -/
def parseNumericRate (s : String) : Option ℚ :=
  match s.data with
  | '-' :: cs => (parseUnsignedRate cs).map (fun q => -q)
  | cs => parseUnsignedRate cs

/-- One preprocessed row as consumed by _validate_rate_consistency: the
grouping key (the tuple of grouping-column values, collapsed to one value)
and the SI rate string. -/
abbrev RateRow := String × String

/-- The rows whose rate parses to a number (df_parsable,
data_processor.py line 241), keeping group, raw rate string and value. -/
def parsableRows (rows : List RateRow) : List (String × String × ℚ) :=
  rows.filterMap (fun r => (parseNumericRate r.2).map (fun v => (r.1, r.2, v)))

/-- Rows excluded from the consistency check because their rate is null or
unparsable (data_processor.py line 237). -/
def unparsableRateCount (rows : List RateRow) : Nat :=
  rows.length - (parsableRows rows).length

/-- The distinct values of a list, keeping first occurrences, modelling the
set of polars group_by keys. -/
def uniqueKeys : List String → List String
  | [] => []
  | g :: gs => g :: (uniqueKeys gs).filter (fun x => x ≠ g)

/-- The parsable rows of one group. -/
def groupRows (rows : List RateRow) (g : String) : List (String × String × ℚ) :=
  (parsableRows rows).filter (fun t => t.1 = g)

/-- n_unique of the raw rate strings over the parsable rows of a group
(data_processor.py line 254). -/
def nUniqueRates (rows : List RateRow) (g : String) : Nat :=
  (uniqueKeys ((groupRows rows g).map (fun t => t.2.1))).length

/-- Minimum of a list of rationals (0 for the empty list, which the
pipeline never queries: summaries exist only for groups with at least one
parsable row). -/
def listMin : List ℚ → ℚ
  | [] => 0
  | x :: xs => xs.foldl min x

/-- Maximum of a list of rationals, same convention as listMin. -/
def listMax : List ℚ → ℚ
  | [] => 0
  | x :: xs => xs.foldl max x

/-- min_rate of a group (data_processor.py line 255). -/
def minRate (rows : List RateRow) (g : String) : ℚ :=
  listMin ((groupRows rows g).map (fun t => t.2.2))

/-- max_rate of a group (data_processor.py line 256). -/
def maxRate (rows : List RateRow) (g : String) : ℚ :=
  listMax ((groupRows rows g).map (fun t => t.2.2))

/-- rate_diff of a group (data_processor.py line 270). -/
def rateDiff (rows : List RateRow) (g : String) : ℚ :=
  maxRate rows g - minRate rows g

/-- config.RATE_EPSILON (src/config.py line 40). -/
def RATE_EPSILON : ℚ := 1 / 100

/-- One row of the per-group validation summary (data_processor.py lines
251-275).  The display-only columns of the QA report (min and max raw
strings, example rate) are omitted: no claim depends on them. -/
structure GroupSummary where
  key : String
  n_unique_rates : Nat
  min_rate : ℚ
  max_rate : ℚ
  rate_diff : ℚ
deriving DecidableEq

/-- The per-group aggregation over the parsable rows (validation_summary,
data_processor.py lines 251-275). -/
def validation_summary (rows : List RateRow) : List GroupSummary :=
  (uniqueKeys ((parsableRows rows).map (fun t => t.1))).map
    (fun g => ⟨g, nUniqueRates rows g, minRate rows g, maxRate rows g, rateDiff rows g⟩)

/-- variable_groups (data_processor.py lines 278-279): a group is flagged
variable when it has more than one distinct raw rate string AND the numeric
spread strictly exceeds RATE_EPSILON. -/
def variable_groups (rows : List RateRow) : List GroupSummary :=
  (validation_summary rows).filter
    (fun s => decide (1 < s.n_unique_rates ∧ RATE_EPSILON < s.rate_diff))

/-- The first rate string encountered for a group in original row order
(the agg first of data_processor.py line 283). -/
def first_si_rate (rows : List RateRow) (g : String) : String :=
  ((rows.find? (fun r => r.1 = g)).map Prod.snd).getD ""

/-- rate_descriptors (data_processor.py line 283): one representative rate
per group present in the full, unfiltered table. -/
def rate_descriptors (rows : List RateRow) : List (String × String) :=
  (uniqueKeys (rows.map Prod.fst)).map (fun g => (g, first_si_rate rows g))

/-- The dictionary returned by _validate_rate_consistency
(data_processor.py lines 243-303); the human-readable message is omitted. -/
structure RateValidationResult where
  is_consistent : Bool
  variable_groups_df : Option (List GroupSummary)
  rate_descriptors_df : Option (List (String × String))
  unparsable_rate_count : Nat

/-- _validate_rate_consistency (data_processor.py lines 188-303): an early
return with no descriptor table when no rate at all is parsable, otherwise
the consistency verdict with the QA table only when variability was found,
and the representative-rate table in either case. -/
def validate_rate_consistency (rows : List RateRow) : RateValidationResult :=
  if parsableRows rows = [] then
    ⟨true, none, none, unparsableRateCount rows⟩
  else if variable_groups rows = [] then
    ⟨true, none, some (rate_descriptors rows), unparsableRateCount rows⟩
  else
    ⟨false, some (variable_groups rows), some (rate_descriptors rows),
      unparsableRateCount rows⟩

lemma uniqueKeys_mem (g : String) : ∀ (l : List String), g ∈ uniqueKeys l ↔ g ∈ l := by
  intro l
  induction l with
  | nil => simp [uniqueKeys]
  | cons a as ih =>
    simp only [uniqueKeys, List.mem_cons, List.mem_filter, ih]
    by_cases hag : g = a
    · simp [hag]
    · simp [hag]

lemma uniqueKeys_filter_eq (l : List String) (g : String) (h : g ∈ l) :
    (uniqueKeys l).filter (fun x => x = g) = [g] := by
  induction l with
  | nil => simp at h
  | cons a as ih =>
    simp only [uniqueKeys, List.filter_cons]
    by_cases hag : a = g
    · subst hag
      rw [if_pos (by simp)]
      have hnil : ((uniqueKeys as).filter (fun x => x ≠ a)).filter (fun x => x = a) = [] := by
        rw [List.filter_filter]
        apply List.filter_eq_nil_iff.mpr
        intro x _
        by_cases hx : x = a <;> simp [hx]
      rw [hnil]
    · have hga : g ∈ as := by
        rcases List.mem_cons.mp h with h1 | h1
        · exact absurd h1.symm hag
        · exact h1
      rw [if_neg (by simp [hag])]
      rw [List.filter_filter]
      have hcg : ∀ x ∈ uniqueKeys as,
          (decide (x = g) && decide (x ≠ a)) = decide (x = g) := by
        intro x _
        by_cases hx : x = g
        · subst hx
          have hxa : x ≠ a := fun hh => hag hh.symm
          simp [hxa]
        · simp [hx]
      rw [List.filter_congr hcg]
      exact ih hga

/-- C5 (amended).  Whenever at least one row of the table has a parsable
rate, validate returns a representative-rate table containing, for every
group present in the table, exactly one row: the first rate string
encountered for that group in original row order, unconditionally (variable
groups and all-unparsable groups included).  (Without the proviso the claim
is false: when every rate of the whole table is unparsable the early return
of data_processor.py lines 243-248 yields no representative-rate table at
all, see the counterexample.) -/
theorem c5_representative_rate (rows : List RateRow) (g : String)
    (hpar : parsableRows rows ≠ [])
    (hg : g ∈ rows.map Prod.fst) :
    ∃ l, (validate_rate_consistency rows).rate_descriptors_df = some l ∧
      l.filter (fun p => p.1 = g) = [(g, first_si_rate rows g)] := by
  refine ⟨rate_descriptors rows, ?_, ?_⟩
  · by_cases hv : variable_groups rows = [] <;>
      simp [validate_rate_consistency, hpar, hv]
  · rw [rate_descriptors, List.filter_map]
    have hcomp : ((fun p : String × String => decide (p.1 = g)) ∘
        (fun g' => (g', first_si_rate rows g'))) = fun x => decide (x = g) := rfl
    rw [hcomp, uniqueKeys_filter_eq _ _ hg]
    simp

/-- Witness for c5_representative_rate at a concrete input. -/
theorem c5_representative_rate_witness :
    (parsableRows [("G", "5m/mo"), ("G", "6m/mo")] ≠ [] ∧
      "G" ∈ ([("G", "5m/mo"), ("G", "6m/mo")] : List RateRow).map Prod.fst) ∧
    ∃ l, (validate_rate_consistency [("G", "5m/mo"), ("G", "6m/mo")]).rate_descriptors_df =
        some l ∧
      l.filter (fun p => p.1 = "G") =
        [("G", first_si_rate [("G", "5m/mo"), ("G", "6m/mo")] "G")] :=
  ⟨⟨by decide, by decide⟩, c5_representative_rate _ _ (by decide) (by decide)⟩

/-- Counterexample to C5 as stated: a one-row table whose only rate is
unparsable.  The early return of _validate_rate_consistency yields no
representative-rate table at all for it, so there is no group with exactly
one representative-rate row. -/
theorem c5_representative_rate_counterexample :
    ([("G", "abc")] : List RateRow).length = 1 ∧
    ¬ ∃ l, (validate_rate_consistency [("G", "abc")]).rate_descriptors_df = some l ∧
        (l.filter (fun p => p.1 = "G")).length = 1 := by
  refine ⟨rfl, ?_⟩
  rintro ⟨l, hl, -⟩
  rw [show (validate_rate_consistency [("G", "abc")]).rate_descriptors_df = none from rfl]
    at hl
  exact Option.noConfusion hl

/-- C6.  A group with at least one parsable rate row is flagged variable if
and only if it has more than one distinct raw rate string among its
parsable rows AND the spread of the parsed values (max minus min, an
absolute difference) strictly exceeds the tolerance 1/100 (RATE_EPSILON);
rows whose rate fails to parse take part in neither condition. -/
theorem c6_variability_iff (rows : List RateRow) (g : String)
    (hg : g ∈ (parsableRows rows).map (fun t => t.1)) :
    g ∈ (variable_groups rows).map GroupSummary.key ↔
      (1 < (uniqueKeys (((parsableRows rows).filter (fun t => t.1 = g)).map
            (fun t => t.2.1))).length ∧
        1 / 100 <
          listMax (((parsableRows rows).filter (fun t => t.1 = g)).map (fun t => t.2.2)) -
            listMin (((parsableRows rows).filter (fun t => t.1 = g)).map
              (fun t => t.2.2))) := by
  have hmem : g ∈ uniqueKeys ((parsableRows rows).map (fun t => t.1)) :=
    (uniqueKeys_mem g _).mpr hg
  constructor
  · intro hin
    rcases List.mem_map.mp hin with ⟨s, hs, hkey⟩
    rcases List.mem_filter.mp hs with ⟨hs1, hs2⟩
    rcases List.mem_map.mp hs1 with ⟨g', hg', hmk⟩
    rw [← hmk] at hs2 hkey
    have hgg : g' = g := hkey
    subst hgg
    exact of_decide_eq_true hs2
  · intro h
    refine List.mem_map.mpr
      ⟨⟨g, nUniqueRates rows g, minRate rows g, maxRate rows g, rateDiff rows g⟩, ?_, rfl⟩
    refine List.mem_filter.mpr ⟨List.mem_map.mpr ⟨g, hmem, rfl⟩, ?_⟩
    exact decide_eq_true
      (show 1 < nUniqueRates rows g ∧ RATE_EPSILON < rateDiff rows g from h)

/-- Witness for c6_variability_iff at a concrete input. -/
theorem c6_variability_iff_witness :
    ("G" ∈ (parsableRows [("G", "1.00m/mo"), ("G", "1.50m/mo")]).map (fun t => t.1)) ∧
    ("G" ∈ (variable_groups [("G", "1.00m/mo"), ("G", "1.50m/mo")]).map GroupSummary.key ↔
      (1 < (uniqueKeys (((parsableRows [("G", "1.00m/mo"), ("G", "1.50m/mo")]).filter
            (fun t => t.1 = "G")).map (fun t => t.2.1))).length ∧
        1 / 100 <
          listMax (((parsableRows [("G", "1.00m/mo"), ("G", "1.50m/mo")]).filter
              (fun t => t.1 = "G")).map (fun t => t.2.2)) -
            listMin (((parsableRows [("G", "1.00m/mo"), ("G", "1.50m/mo")]).filter
              (fun t => t.1 = "G")).map (fun t => t.2.2)))) :=
  ⟨by decide, c6_variability_iff _ _ (by decide)⟩

/-! # Period labels (src/backend/data_processor.py, _preprocess_dataframe) -/

/-- The decimal digit character for d mod 10. -/
def digitChar (d : Nat) : Char := Char.ofNat (48 + d)

/-- strftime of a month-truncated date with the %Y-%m format
(data_processor.py lines 139-145), for years 0-9999: four-digit zero-padded
year, hyphen, two-digit zero-padded month. -/
def periodLabel (y m : Nat) : String :=
  ⟨[digitChar (y / 1000 % 10), digitChar (y / 100 % 10), digitChar (y / 10 % 10),
    digitChar (y % 10), '-', digitChar (m / 10 % 10), digitChar (m % 10)]⟩

lemma digitChar_lt_iff (a b : Nat) :
    digitChar (a % 10) < digitChar (b % 10) ↔ a % 10 < b % 10 := by
  have ha : a % 10 < 10 := Nat.mod_lt _ (by norm_num)
  have hb : b % 10 < 10 := Nat.mod_lt _ (by norm_num)
  interval_cases h1 : a % 10 <;> interval_cases h2 : b % 10 <;>
    simp [digitChar] <;> decide

lemma digitChar_eq_iff (a b : Nat) :
    digitChar (a % 10) = digitChar (b % 10) ↔ a % 10 = b % 10 := by
  have ha : a % 10 < 10 := Nat.mod_lt _ (by norm_num)
  have hb : b % 10 < 10 := Nat.mod_lt _ (by norm_num)
  interval_cases h1 : a % 10 <;> interval_cases h2 : b % 10 <;>
    simp [digitChar] <;> decide

lemma lex_cons_iff (a b : Char) (l₁ l₂ : List Char) :
    List.Lex (· < ·) (a :: l₁) (b :: l₂) ↔ a < b ∨ (a = b ∧ List.Lex (· < ·) l₁ l₂) := by
  constructor
  · intro h
    cases h with
    | cons h => exact Or.inr ⟨rfl, h⟩
    | rel h => exact Or.inl h
  · rintro (h | ⟨rfl, h⟩)
    · exact List.Lex.rel h
    · exact List.Lex.cons h

/-- C9.  For canonical YYYY-MM period labels (four-digit zero-padded years,
calendar months), lexical string order coincides with chronological order,
so sorting labels as strings sorts the underlying dates. -/
theorem c9_lexical_chronological (y1 m1 y2 m2 : Nat)
    (hy1 : y1 < 10000) (hy2 : y2 < 10000) (hm1 : m1 ≤ 12) (hm2 : m2 ≤ 12) :
    (periodLabel y1 m1 < periodLabel y2 m2 ↔ (y1 < y2 ∨ (y1 = y2 ∧ m1 < m2))) := by
  have hconv : ∀ (a b : List Char), (a < b) = List.Lex (· < ·) a b := fun a b => rfl
  rw [String.lt_iff_toList_lt]
  have h1 : (periodLabel y1 m1).toList =
      [digitChar (y1 / 1000 % 10), digitChar (y1 / 100 % 10), digitChar (y1 / 10 % 10),
        digitChar (y1 % 10), '-', digitChar (m1 / 10 % 10), digitChar (m1 % 10)] := rfl
  have h2 : (periodLabel y2 m2).toList =
      [digitChar (y2 / 1000 % 10), digitChar (y2 / 100 % 10), digitChar (y2 / 10 % 10),
        digitChar (y2 % 10), '-', digitChar (m2 / 10 % 10), digitChar (m2 % 10)] := rfl
  rw [h1, h2, hconv]
  simp only [lex_cons_iff, digitChar_lt_iff, digitChar_eq_iff, lt_self_iff_false,
    eq_self_iff_true, true_and, false_or, List.Lex.not_nil_right, or_false, and_false]
  have hd1 : y1 = 1000 * (y1 / 1000 % 10) + 100 * (y1 / 100 % 10) + 10 * (y1 / 10 % 10) +
      y1 % 10 := by omega
  have hd2 : y2 = 1000 * (y2 / 1000 % 10) + 100 * (y2 / 100 % 10) + 10 * (y2 / 10 % 10) +
      y2 % 10 := by omega
  have hdm1 : m1 = 10 * (m1 / 10 % 10) + m1 % 10 := by omega
  have hdm2 : m2 = 10 * (m2 / 10 % 10) + m2 % 10 := by omega
  omega

/-- Witness for c9_lexical_chronological at concrete labels. -/
theorem c9_lexical_chronological_witness :
    (2024 < 10000 ∧ 2025 < 10000 ∧ 12 ≤ 12 ∧ 1 ≤ 12) ∧
    (periodLabel 2024 12 < periodLabel 2025 1 ↔ (2024 < 2025 ∨ (2024 = 2025 ∧ 12 < 1))) :=
  ⟨⟨by decide, by decide, by decide, by decide⟩,
    c9_lexical_chronological 2024 12 2025 1 (by decide) (by decide) (by decide) (by decide)⟩

/-! # Rate parsing and monthly-SI normalization (src/backend/unit_converter.py) -/

/-- Character-wise lower-casing (str.lower on the ASCII tokens the rate
regex produces). -/
def strLower (s : String) : String := ⟨s.data.map Char.toLower⟩

/-- str.strip: remove leading and trailing whitespace. -/
def strTrim (s : String) : String :=
  ⟨((s.data.dropWhile Char.isWhitespace).reverse.dropWhile Char.isWhitespace).reverse⟩

/-- A character matched by the value class of the rate regex, digits and
dots. -/
def isNumDot (c : Char) : Bool := c.isDigit || c = '.'

/-- The unsigned part of a Python float literal: digits, at most one dot,
at least one digit overall (exponents and specials are not modelled; the
callers in the embedded sources never produce them). -/
def parseFloatUnsigned (cs : List Char) : Option ℚ :=
  let ip := cs.takeWhile Char.isDigit
  let r1 := cs.dropWhile Char.isDigit
  match r1 with
  | [] => if ip.isEmpty then none else some (digitsVal ip : ℚ)
  | '.' :: r2 =>
    let fp := r2.takeWhile Char.isDigit
    let r3 := r2.dropWhile Char.isDigit
    if r3.isEmpty then
      if ip.isEmpty && fp.isEmpty then none
      else some ((digitsVal ip : ℚ) + (digitsVal fp : ℚ) / (10 : ℚ) ^ fp.length)
    else none
  | _ => none

/-- Python float() on a numeric token, with an optional sign. -/
def parseFloatChars (cs : List Char) : Option ℚ :=
  match cs with
  | '-' :: r => (parseFloatUnsigned r).map (fun q => -q)
  | '+' :: r => parseFloatUnsigned r
  | _ => parseFloatUnsigned cs

/-- parse_rate_string (unit_converter.py lines 27-63): strip the input,
match the anchored pattern value [digits and dots], optional spaces, unit
[letters], optional spaces, a slash, optional spaces, period [letters],
end of string; then parse the value as a float.  Returns none on any
mismatch or float failure.  (The non-string-input branch is outside a
String-typed embedding.) -/
def parse_rate_string (s : String) : Option (ℚ × String × String) :=
  let cs := (strTrim s).data
  let numPart := cs.takeWhile isNumDot
  let r1 := cs.dropWhile isNumDot
  if numPart.isEmpty then none
  else
    let r2 := r1.dropWhile Char.isWhitespace
    let unit := r2.takeWhile Char.isAlpha
    let r3 := r2.dropWhile Char.isAlpha
    if unit.isEmpty then none
    else
      match r3.dropWhile Char.isWhitespace with
      | '/' :: r4 =>
        let r5 := r4.dropWhile Char.isWhitespace
        let period := r5.takeWhile Char.isAlpha
        let r6 := r5.dropWhile Char.isAlpha
        if period.isEmpty then none
        else if r6.isEmpty then
          (parseFloatChars numPart).map (fun v => (v, (⟨unit⟩ : String), (⟨period⟩ : String)))
        else none
      | _ => none

/-- unit_aliases (unit_converter.py lines 82-104). -/
def unit_aliases : List (String × String) :=
  [("ftp", "foot"), ("ft", "foot"), ("m", "meter"), ("meters", "meter"), ("metres", "meter"),
   ("dm", "decimeter"), ("gal", "gallon"), ("l", "liter"), ("liters", "liter"),
   ("litres", "liter"), ("wmt", "metric_ton"), ("dmt", "metric_ton"), ("mt", "metric_ton"),
   ("tonne", "metric_ton"), ("tonnes", "metric_ton"), ("t", "metric_ton")]

/-- unit_aliases.get(unit_str.lower(), unit_str): the alias table with the
input itself as default. -/
def aliasLookup (u : String) : String :=
  ((unit_aliases.find? (fun p => p.1 = u)).map Prod.snd).getD u

/-- Models the external pint unit registry combined with the
dimensionality-based SI target of convert_unit_to_si (unit_converter.py
lines 108-131): for the units reachable through the alias table (and the SI
units themselves), the conversion factor to the chosen SI unit, meter for
length, liter for volume, kilogram for mass.  none models a unit unknown to
the registry, which pint reports by raising UndefinedUnitError.  pint is an
external collaborator of the repository; the spec scopes it out at this
interface boundary. -/
def pintToSi : String → Option (ℚ × String)
  | "foot" => some (3048 / 10000, "meter")
  | "meter" => some (1, "meter")
  | "decimeter" => some (1 / 10, "meter")
  | "gallon" => some (3785411784 / 1000000000, "liter")
  | "liter" => some (1, "liter")
  | "metric_ton" => some (1000, "kilogram")
  | "kilogram" => some (1, "kilogram")
  | _ => none

/-- convert_unit_to_si (unit_converter.py lines 66-135): normalize the
abbreviation through the alias table, then convert through the registry;
on an undefined unit the except branch at lines 133-135 returns the value
and the original unit string unchanged, and conversion continues. -/
def convert_unit_to_si (value : ℚ) (unit : String) : ℚ × String :=
  match pintToSi (aliasLookup (strLower unit)) with
  | some fs => (value * fs.1, fs.2)
  | none => (value, unit)

/-- TIME_TO_MONTH_MULTIPLIERS (unit_converter.py lines 13-24). -/
def TIME_TO_MONTH_MULTIPLIERS : List (String × ℚ) :=
  [("week", 433 / 100), ("w", 433 / 100), ("day", 3044 / 100), ("d", 3044 / 100),
   ("year", 1 / 12), ("y", 1 / 12), ("yr", 1 / 12), ("month", 1), ("mo", 1), ("m", 1)]

/-- Dictionary lookup of the period token. -/
def timeMultiplier (p : String) : Option ℚ :=
  (TIME_TO_MONTH_MULTIPLIERS.find? (fun q => q.1 = p)).map Prod.snd

/-- Python percent .2f formatting of the monthly value, modelled with
round half up over exact rationals (every claim evaluates it only at
values exact in two decimals, where all rounding modes agree). -/
def formatFixed2 (q : ℚ) : String :=
  let n : ℤ := round (q * 100)
  let a := n.natAbs
  (if n < 0 then "-" else "") ++ Nat.repr (a / 100) ++ "." ++
    ⟨[digitChar (a / 10 % 10), digitChar (a % 10)]⟩

/-- convert_rate_to_monthly_si (unit_converter.py lines 138-178): parse the
rate string (returning it unchanged on a parse failure), convert the unit
to SI, apply the period-to-month multiplier (defaulting to 1 for an
unknown period token), and format the monthly value to two decimals with
the unit and the /mo suffix. -/
def convert_rate_to_monthly_si (s : String) : String :=
  match parse_rate_string s with
  | none => s
  | some (v, u, p) =>
    let si := convert_unit_to_si v u
    let mult := (timeMultiplier (strLower p)).getD 1
    formatFixed2 (si.1 * mult) ++ si.2 ++ "/mo"

/-- C7 (amended).  A failure of the parse stage (shape mismatch or
float-parse failure) returns the original input string unchanged, and the
normalizer is a total function, never a raised error.  (The claim as
stated is false for the unit-conversion stage: an undefined unit does not
return the original string, the except branch keeps the unconverted value
and unit and the period multiplier and reformatting still apply; see the
counterexample.) -/
theorem c7_parse_failure_passthrough (s : String)
    (h : parse_rate_string s = none) :
    convert_rate_to_monthly_si s = s := by
  simp [convert_rate_to_monthly_si, h]

/-- Witness for c7_parse_failure_passthrough at a concrete input. -/
theorem c7_parse_failure_passthrough_witness :
    parse_rate_string "hello" = none ∧
    convert_rate_to_monthly_si "hello" = "hello" :=
  ⟨by decide, c7_parse_failure_passthrough _ (by decide)⟩

/-- Counterexample to C7 as stated: the rate "5xyz/w" parses, its unit
"xyz" is unknown to the registry (the unit-conversion stage fails), yet the
output is "21.65xyz/mo" (5 times the weekly multiplier 4.33, reformatted
with the original unit), not the original input string. -/
theorem c7_unit_failure_counterexample :
    pintToSi (aliasLookup (strLower "xyz")) = none ∧
    convert_rate_to_monthly_si "5xyz/w" = "21.65xyz/mo" ∧
    convert_rate_to_monthly_si "5xyz/w" ≠ "5xyz/w" := by
  have h2 : convert_rate_to_monthly_si "5xyz/w" = "21.65xyz/mo" := by
    have hp : parse_rate_string "5xyz/w" = some ((5 : ℚ), ("xyz", "w")) := by
      simp +decide [parse_rate_string, strTrim, isNumDot, parseFloatChars,
        parseFloatUnsigned, show digitsVal ['5'] = 5 from by decide]
    have hu : convert_unit_to_si 5 "xyz" = (5, "xyz") := rfl
    have hm : (timeMultiplier (strLower "w")).getD 1 = 433 / 100 := rfl
    simp only [convert_rate_to_monthly_si, hp, hu, hm]
    rw [show (5 : ℚ) * (433 / 100) = 2165 / 100 from by norm_num]
    rw [show formatFixed2 (2165 / 100) = "21.65" from by
      rw [formatFixed2,
        show round ((2165 : ℚ) / 100 * 100) = 2165 from by rw [round_eq]; norm_num]
      decide]
    decide
  exact ⟨rfl, h2, by rw [h2]; decide⟩

/-! # Derived-column generation (src/backend/column_generation.py) -/

/-- A polars column: a string column or a numeric column, with
possibly-null cells. -/
inductive Column where
  | strs (cells : List (Option String))
  | nums (cells : List (Option ℚ))
deriving DecidableEq

/-- A polars DataFrame: named columns in order. -/
abbrev DataFrame := List (String × Column)

def colNames (df : DataFrame) : List String := df.map Prod.fst

def lookupCol (df : DataFrame) (n : String) : Option Column :=
  (df.find? (fun p => p.1 = n)).map Prod.snd

/-- The cast of one target column (column_generation.py lines 36-49):
a non-numeric column is cast elementwise to Float64 with unparsable cells
becoming null, a numeric column is kept; in both branches nulls are then
filled with 0. -/
def coerceColumn : Column → List ℚ
  | .strs cells => cells.map (fun c => (c.bind (fun s => parseFloatChars s.data)).getD 0)
  | .nums cells => cells.map (fun c => c.getD 0)

/-- df.with_columns(cast_expressions): every target column replaced by its
coerced version. -/
def castTargets (df : DataFrame) (targets : List String) : DataFrame :=
  df.map (fun p =>
    if p.1 ∈ targets then (p.1, Column.nums ((coerceColumn p.2).map some)) else p)

/-- pl.col(n) evaluated on the (coerced) frame. -/
def exprVals (df : DataFrame) (n : String) : List ℚ :=
  match lookupCol df n with
  | some c => coerceColumn c
  | none => []

/-- pl.sum_horizontal over the target columns. -/
def horizontalSum (cols : List (List ℚ)) : List ℚ :=
  match cols with
  | [] => []
  | c :: cs => cs.foldl (fun acc d => List.zipWith (· + ·) acc d) c

/-- The reduce of elementwise products over the target columns. -/
def horizontalProd (cols : List (List ℚ)) : List ℚ :=
  match cols with
  | [] => []
  | c :: cs => cs.foldl (fun acc d => List.zipWith (· * ·) acc d) c

/-- pl.col(b).replace(0, None) (column_generation.py line 61). -/
def replaceZeroWithNull (l : List ℚ) : List (Option ℚ) :=
  l.map (fun d => if d = 0 then none else some d)

/-- pl.col(a) / denominator, with a null denominator propagating to a null
quotient for that row (column_generation.py line 62). -/
def divideExpr (numer : List ℚ) (denom : List (Option ℚ)) : List (Option ℚ) :=
  List.zipWith (fun n dOpt => dOpt.map (fun d => n / d)) numer denom

/-- generate_new_column (column_generation.py lines 5-66): validation
errors for an empty target list, a duplicate new name, a missing target
column, a bad operation, or divide without exactly two targets; otherwise
the coerced frame with the derived column appended. -/
def generate_new_column (df : DataFrame) (target_cols : List String)
    (new_col_name : String) (operation : String) : Except String DataFrame :=
  if target_cols.isEmpty then Except.error "Target columns list cannot be empty."
  else if (colNames df).contains new_col_name then
    Except.error "Column already exists in the DataFrame."
  else
    match target_cols.find? (fun c => !(colNames df).contains c) with
    | some c => Except.error ("Target column not found in DataFrame: " ++ c)
    | none =>
      let df2 := castTargets df target_cols
      if operation = "sum" then
        Except.ok (df2 ++ [(new_col_name,
          Column.nums ((horizontalSum (target_cols.map (exprVals df2))).map some))])
      else if operation = "multiply" then
        Except.ok (df2 ++ [(new_col_name,
          Column.nums ((horizontalProd (target_cols.map (exprVals df2))).map some))])
      else if operation = "divide" then
        match target_cols with
        | [a, b] =>
          Except.ok (df2 ++ [(new_col_name, Column.nums
            (divideExpr (exprVals df2 a) (replaceZeroWithNull (exprVals df2 b))))])
        | _ => Except.error "Division operation requires exactly two target columns."
      else Except.error "Unsupported operation."

lemma lookup_mem {df : DataFrame} {n : String} {c : Column}
    (h : lookupCol df n = some c) : n ∈ colNames df := by
  rw [lookupCol] at h
  rcases Option.map_eq_some'.mp h with ⟨x, hx, hxc⟩
  have hpx := List.find?_some hx
  have hmem := List.mem_of_find?_eq_some hx
  have : x.1 = n := by simpa using hpx
  rw [colNames, ← this]
  exact List.mem_map_of_mem _ hmem

lemma lookupCol_castTargets (df : DataFrame) (ts : List String) (n : String) :
    lookupCol (castTargets df ts) n =
      (lookupCol df n).map
        (fun c => if n ∈ ts then Column.nums ((coerceColumn c).map some) else c) := by
  induction df with
  | nil => simp [lookupCol, castTargets]
  | cons p rest ih =>
    by_cases hn : p.1 = n
    · by_cases hts : p.1 ∈ ts <;>
        simp [lookupCol, castTargets, List.find?_cons, hn, hts, hn ▸ hts]
    · by_cases hts : p.1 ∈ ts <;>
        simpa [lookupCol, castTargets, List.find?_cons, hn, hts] using ih

lemma coerce_coerced (c : Column) :
    coerceColumn (Column.nums ((coerceColumn c).map some)) = coerceColumn c := by
  cases c <;> simp [coerceColumn, List.map_map, Function.comp]

lemma colNames_castTargets (df : DataFrame) (ts : List String) :
    colNames (castTargets df ts) = colNames df := by
  induction df with
  | nil => rfl
  | cons p rest ih =>
    by_cases hts : p.1 ∈ ts <;> simp [colNames, castTargets, hts] <;>
      simpa [colNames, castTargets] using ih

lemma lookupCol_append_right (df1 df2 : DataFrame) (n : String)
    (h : n ∉ colNames df1) : lookupCol (df1 ++ df2) n = lookupCol df2 n := by
  rw [lookupCol, List.find?_append, lookupCol]
  have hnone : df1.find? (fun p => p.1 = n) = none := by
    rw [List.find?_eq_none]
    intro x hx
    simp only [decide_eq_true_eq]
    intro hxn
    exact h (hxn ▸ List.mem_map_of_mem Prod.fst hx)
  rw [hnone, Option.none_or]

lemma divide_fuse (numer denom : List ℚ) :
    divideExpr numer (replaceZeroWithNull denom) =
      List.zipWith (fun n d => if d = 0 then none else some (n / d)) numer denom := by
  rw [divideExpr, replaceZeroWithNull, List.zipWith_map_right]
  congr 1
  funext n d
  by_cases hd : d = 0 <;> simp [hd]

/-- C8.  For generate_column with the divide operation on two existing
target columns and a fresh name, the call returns a new frame (no
exception), whose derived column has, for every row, a missing (null)
value when the coerced denominator is 0 and the quotient of the coerced
cells otherwise. -/
theorem c8_divide_by_zero_safety (df : DataFrame) (a b nm : String)
    (colA colB : Column)
    (ha : lookupCol df a = some colA) (hb : lookupCol df b = some colB)
    (hnm : nm ∉ colNames df) :
    ∃ df2, generate_new_column df [a, b] nm "divide" = Except.ok df2 ∧
      lookupCol df2 nm = some (Column.nums (List.zipWith
        (fun n d => if d = 0 then none else some (n / d))
        (coerceColumn colA) (coerceColumn colB))) := by
  have hcontains : (colNames df).contains nm = false :=
    Bool.eq_false_iff.mpr (fun hcon => hnm (List.elem_iff.mp hcon))
  have hfind : ([a, b].find? (fun c => !(colNames df).contains c)) = none := by
    rw [List.find?_eq_none]
    intro x hx
    rcases List.mem_cons.mp hx with rfl | hx2
    · simp [lookup_mem ha]
    · rcases List.mem_cons.mp hx2 with rfl | hx3
      · simp [lookup_mem hb]
      · simp at hx3
  refine ⟨castTargets df [a, b] ++ [(nm, Column.nums
    (divideExpr (exprVals (castTargets df [a, b]) a)
      (replaceZeroWithNull (exprVals (castTargets df [a, b]) b))))], ?_, ?_⟩
  · rw [generate_new_column]
    rw [if_neg (by simp), if_neg (by simpa using hnm), hfind]
    rw [if_neg (by decide), if_neg (by decide), if_pos rfl]
  · have hwa : exprVals (castTargets df [a, b]) a = coerceColumn colA := by
      rw [exprVals, lookupCol_castTargets, ha]
      simp [coerce_coerced]
    have hwb : exprVals (castTargets df [a, b]) b = coerceColumn colB := by
      rw [exprVals, lookupCol_castTargets, hb]
      simp [coerce_coerced]
    rw [lookupCol_append_right _ _ _ (by rw [colNames_castTargets]; exact hnm)]
    rw [hwa, hwb, divide_fuse]
    simp [lookupCol]

/-- Witness for c8_divide_by_zero_safety at a concrete frame: denominator
column [2, 0] yields quotient column [some 5, none]. -/
theorem c8_divide_by_zero_safety_witness :
    (lookupCol [("x", Column.nums [some 10, some 5]), ("y", Column.nums [some 2, some 0])]
        "x" = some (Column.nums [some 10, some 5]) ∧
      lookupCol [("x", Column.nums [some 10, some 5]), ("y", Column.nums [some 2, some 0])]
        "y" = some (Column.nums [some 2, some 0]) ∧
      "z" ∉ colNames [("x", Column.nums [some 10, some 5]),
        ("y", Column.nums [some 2, some 0])]) ∧
    ∃ df2, generate_new_column
        [("x", Column.nums [some 10, some 5]), ("y", Column.nums [some 2, some 0])]
        ["x", "y"] "z" "divide" = Except.ok df2 ∧
      lookupCol df2 "z" = some (Column.nums (List.zipWith
        (fun n d => if d = 0 then none else some (n / d))
        (coerceColumn (Column.nums [some 10, some 5]))
        (coerceColumn (Column.nums [some 2, some 0])))) :=
  ⟨⟨by decide, by decide, by decide⟩,
    c8_divide_by_zero_safety _ "x" "y" "z" _ _ (by decide) (by decide) (by decide)⟩

/-! # Top-level smoothing entry point
(src/backend/data_filter.py, smooth_data_with_stockpile) -/

/-- Lexicographic code-point comparison of character lists, the order used
by the built-in sorted(...) on strings. -/
def charListLe : List Char → List Char → Bool
  | [], _ => true
  | _ :: _, [] => false
  | a :: as, b :: bs => if a < b then true else if b < a then false else charListLe as bs

def strLe (s t : String) : Bool := charListLe s.data t.data

def insertStr (s : String) : List String → List String
  | [] => [s]
  | t :: ts => if strLe s t then s :: t :: ts else t :: insertStr s ts

def sortStrings : List String → List String
  | [] => []
  | s :: ss => insertStr s (sortStrings ss)

/-- The month-column detection of smooth_data_with_stockpile
(data_filter.py lines 42-44): every column whose name is neither a
grouping column nor "ID", sorted as strings; the YYYY-MM pattern is NOT
checked. -/
def smoothMonthCols (df : DataFrame) (grouping_cols : List String) : List String :=
  sortStrings ((colNames df).filter (fun c => !(grouping_cols ++ ["ID"]).contains c))

/-- df[col][row]: the cell of a named column at a row, as either a string
or a number, none for a null cell or a missing column. -/
def getCell (df : DataFrame) (n : String) (i : Nat) : Option (String ⊕ ℚ) :=
  match lookupCol df n with
  | some (Column.strs cells) => (cells.getD i none).map Sum.inl
  | some (Column.nums cells) => (cells.getD i none).map Sum.inr
  | none => none

/-- Number of rows of the frame (the height of its first column). -/
def dfHeight (df : DataFrame) : Nat :=
  match df with
  | [] => 0
  | (_, Column.strs cells) :: _ => cells.length
  | (_, Column.nums cells) :: _ => cells.length

/-- The conversion of one cell value (data_filter.py lines 63-67): null
becomes 0.0, a numeric cell is used as is, a string cell goes through
float(), which raises ValueError on a non-numeric string. -/
def cellToFloat : Option (String ⊕ ℚ) → Except String ℚ
  | none => Except.ok 0
  | some (Sum.inr q) => Except.ok q
  | some (Sum.inl s) =>
    match parseFloatChars (strTrim s).data with
    | some q => Except.ok q
    | none => Except.error ("could not convert string to float: " ++ s)

/-- Error-propagating elementwise traversal, the loop of an exception in a
Python for-statement. -/
def mapExcept {α β : Type} (f : α → Except String β) : List α → Except String (List β)
  | [] => Except.ok []
  | x :: xs =>
    match f x with
    | Except.error e => Except.error e
    | Except.ok y =>
      match mapExcept f xs with
      | Except.error e => Except.error e
      | Except.ok ys => Except.ok (y :: ys)

/-- str.to_date of a month label with the %Y-%m format inside
_apply_stockpile_smoothing (data_filter.py line 137), to the absolute
month index year * 12 + (month - 1); a non-matching name raises, modelled
as an error. -/
def parseMonthStr (s : String) : Except String Nat :=
  match s.data with
  | [y3, y2, y1, y0, '-', mh, ml] =>
    if y3.isDigit && y2.isDigit && y1.isDigit && y0.isDigit && mh.isDigit && ml.isDigit then
      let y := digitsVal [y3, y2, y1, y0]
      let m := digitsVal [mh, ml]
      if 1 ≤ m && m ≤ 12 then Except.ok (y * 12 + (m - 1))
      else Except.error ("cannot parse month from: " ++ s)
    else Except.error ("cannot parse month from: " ++ s)
  | _ => Except.error ("cannot parse month from: " ++ s)

/-- smooth_data_with_stockpile (data_filter.py lines 12-115), up to the
per-group smoothing results: month columns are every column not among the
grouping columns and not named "ID"; for each row the reported series is
read with nulls as 0 and a float() conversion that raises on non-numeric
strings; all-zero groups are skipped (the empty result); every remaining
series is smoothed by apply_stockpile_smoothing after parsing the month
labels to dates.  Except.error models the exception propagated by the try
block at lines 35-115.  The final pivot back to wide form and the zero
fill are omitted: no claim depends on them. -/
def smooth_data_with_stockpile (df : DataFrame) (grouping_cols : List String)
    (driver_threshold : ℚ) : Except String (List (List SmoothEntry)) :=
  let monthCols := smoothMonthCols df grouping_cols
  mapExcept (fun i =>
      match mapExcept (fun m => cellToFloat (getCell df m i)) monthCols with
      | Except.error e => Except.error e
      | Except.ok vals =>
        if vals.any (fun v => decide (0 < v)) then
          match mapExcept (fun mv =>
              match parseMonthStr mv.1 with
              | Except.error e => Except.error e
              | Except.ok k => Except.ok (k, mv.2)) (monthCols.zip vals) with
          | Except.error e => Except.error e
          | Except.ok keyed => Except.ok (apply_stockpile_smoothing keyed driver_threshold)
        else Except.ok [])
    (List.range (dfHeight df))

/-- C10.  smooth identifies period columns as every column other than the
grouping columns and "ID", without checking the YYYY-MM pattern: on the
documented aggregate output shape (ID, grouping columns, the joined
representative SI-rate column, month columns), the rate column is
classified as a month column, and the numeric conversion of its rate
string raises (the error return) instead of the column being ignored. -/
theorem c10_smooth_rate_column_error :
    "SI Rate" ∈ smoothMonthCols
        [("ID", Column.strs [some "North-Gadgets"]),
          ("Region", Column.strs [some "North"]),
          ("SI Rate", Column.strs [some "21.65meter/mo"]),
          ("2025-01", Column.nums [some 60])] ["Region"] ∧
    smooth_data_with_stockpile
        [("ID", Column.strs [some "North-Gadgets"]),
          ("Region", Column.strs [some "North"]),
          ("SI Rate", Column.strs [some "21.65meter/mo"]),
          ("2025-01", Column.nums [some 60])] ["Region"] 50 =
      Except.error "could not convert string to float: 21.65meter/mo" :=
  ⟨by decide, rfl⟩
